import Mathlib

/-!
Verification development for the meal-match core pipeline.

The embedding translates, from the repository sources:
* the storage schema and the `check_for_match` trigger of
  `supabase/migrations/001_initial_schema.sql` (tables `couples`, `swipes`,
  `matches`, their uniqueness constraints, the row-level-security insert
  checks, and the trigger's `INSERT ... ON CONFLICT DO NOTHING`);
* the client hook `useSwipes.recordSwipe` (swipe insert, dislike early
  return, partner lookup, existing-match check, match insert, and its
  error handling);
* `useMatches.toggleFavorite` and the `matches` favorite update;
* `sendMatchNotification` from `utils/notifications.ts`;
* the `useRealtime` hook's connection-state handling.

Identifiers are opaque and are modelled as `Nat`. Timestamps are passed in
as `Nat` arguments (`now`). The `created_at`/`updated_at` bookkeeping columns,
which no modelled code path reads, are omitted from the row types. Storage
unavailability is modelled by fault flags injected at each fallible call of
the hook, and concurrency by arbitrary interleavings of the atomic storage
statements (each SQL statement, including its row trigger, is one atomic
step).
-/

namespace MealMatch

/-- Swipe direction: the `direction` column of `swipes`, constrained by the
schema to `'like'` or `'dislike'`. -/
inductive Direction where
  | like
  | dislike
deriving DecidableEq, Repr

/-- A row of the `couples` table: two user slots, `user2_id` nullable until
invite redemption (schema `couples`). The invite code and timestamps are not
read by any modelled path and are omitted. -/
structure Couple where
  id : Nat
  user1_id : Nat
  user2_id : Option Nat
deriving DecidableEq, Repr

/-- A row of the `swipes` table (preference ledger). -/
structure SwipeRow where
  id : Nat
  user_id : Nat
  recipe_id : Nat
  couple_id : Nat
  direction : Direction
deriving DecidableEq, Repr

/-- A row of the `matches` table. `matched_at` is the only timestamp a
modelled path reads. -/
structure MatchRow where
  id : Nat
  couple_id : Nat
  recipe_id : Nat
  is_favorite : Bool
  matched_at : Nat
deriving DecidableEq, Repr

/-- The datastore: the three tables the core pipeline touches, plus a fresh-id
counter standing for uuid generation. -/
structure DB where
  couples : List Couple
  swipes : List SwipeRow
  matchRows : List MatchRow
  nextId : Nat
deriving DecidableEq, Repr

/-- Errors a storage statement reports to its caller: the unique-constraint
violation (Postgres duplicate key, e.g. `unique_user_recipe_swipe` or
`unique_couple_recipe_match`) and the row-level-security rejection. Storage
unavailability is injected separately via fault flags. -/
inductive StoreErr where
  | uniqueViolation
  | rlsViolation
  | storageFailure
deriving DecidableEq, Repr

/-- `SELECT ... FROM couples WHERE id = cid` (first row). -/
def findCouple (couples : List Couple) (cid : Nat) : Option Couple :=
  couples.find? (fun c => c.id == cid)

/-- The row-level-security `WITH CHECK` of "Users can insert their own swipes":
the authenticated user inserts as themselves and must occupy one of the two
slots of the couple. -/
def swipeAllowed (couples : List Couple) (u c : Nat) : Bool :=
  match findCouple couples c with
  | some cpl => u == cpl.user1_id || cpl.user2_id == some u
  | none => false

/-- Whether a `swipes` row with key `(user_id, recipe_id, couple_id)` exists:
the `unique_user_recipe_swipe` constraint fires on insert exactly when it
does. -/
def hasSwipe (swipes : List SwipeRow) (u r c : Nat) : Bool :=
  swipes.any (fun s => s.user_id == u && s.recipe_id == r && s.couple_id == c)

/-- All `swipes` rows with key `(user_id, recipe_id, couple_id)`. -/
def keyedSwipes (swipes : List SwipeRow) (u r c : Nat) : List SwipeRow :=
  swipes.filter (fun s => s.user_id == u && s.recipe_id == r && s.couple_id == c)

/-- Whether a recorded `like` by `u` for `(r, c)` exists. -/
def hasLike (swipes : List SwipeRow) (u r c : Nat) : Bool :=
  swipes.any (fun s => s.user_id == u && s.recipe_id == r && s.couple_id == c
    && s.direction == Direction.like)

/-- `SELECT * FROM matches WHERE couple_id = c AND recipe_id = r` (first row):
the existence check of the `unique_couple_recipe_match` key. -/
def matchFor (ms : List MatchRow) (c r : Nat) : Option MatchRow :=
  ms.find? (fun m => m.couple_id == c && m.recipe_id == r)

/-- All `matches` rows for the key `(couple_id, recipe_id)`. -/
def matchesFor (ms : List MatchRow) (c r : Nat) : List MatchRow :=
  ms.filter (fun m => m.couple_id == c && m.recipe_id == r)

/-- The trigger's `SELECT CASE WHEN user1_id = NEW.user_id THEN user2_id ELSE
user1_id END` over the couple row: the partner slot. -/
def sqlPartner (cpl : Couple) (uid : Nat) : Option Nat :=
  if cpl.user1_id == uid then cpl.user2_id else some cpl.user1_id

/-- The trigger's partner-swipe lookup: `SELECT direction FROM swipes WHERE
user_id = partner_id AND recipe_id = ... AND couple_id = ...`. A `NULL`
partner (incomplete couple) matches no row, as in SQL. -/
def partnerSwipeDirection (swipes : List SwipeRow) (pid : Option Nat) (r c : Nat) :
    Option Direction :=
  match pid with
  | none => none
  | some p =>
    (swipes.find? (fun s => s.user_id == p && s.recipe_id == r && s.couple_id == c)).map
      (fun s => s.direction)

/-- `INSERT INTO matches (couple_id, recipe_id, matched_at) VALUES (...) ON
CONFLICT (couple_id, recipe_id) DO NOTHING`: the storage-level atomic
insert-if-absent used by the trigger. Its outcome (inserted or found) is not
reported: the trigger discards it. -/
def matchUpsertIgnore (db : DB) (c r now : Nat) : DB :=
  match matchFor db.matchRows c r with
  | some _ => db
  | none =>
    { db with
      matchRows := db.matchRows ++ [⟨db.nextId, c, r, false, now⟩]
      nextId := db.nextId + 1 }

/-- The `check_for_match` trigger body, run `AFTER INSERT` on `swipes` with
`NEW = s` already in `db.swipes`. -/
def checkForMatch (db : DB) (s : SwipeRow) (now : Nat) : DB :=
  if s.direction == Direction.like then
    match findCouple db.couples s.couple_id with
    | none => db
    | some cpl =>
      match partnerSwipeDirection db.swipes (sqlPartner cpl s.user_id) s.recipe_id
          s.couple_id with
      | some Direction.like => matchUpsertIgnore db s.couple_id s.recipe_id now
      | _ => db
  else db

/-- `INSERT INTO swipes ...` as one atomic storage statement: the row-level
security check, the `unique_user_recipe_swipe` constraint, the insert itself
and the `on_swipe_created` trigger. -/
def swipesInsert (db : DB) (u r c : Nat) (d : Direction) (now : Nat) :
    Except StoreErr (DB × SwipeRow) :=
  if swipeAllowed db.couples u c then
    if hasSwipe db.swipes u r c then
      .error .uniqueViolation
    else
      let row : SwipeRow := ⟨db.nextId, u, r, c, d⟩
      let db1 : DB := { db with swipes := db.swipes ++ [row], nextId := db.nextId + 1 }
      .ok (checkForMatch db1 row now, row)
  else
    .error .rlsViolation

/-- The bare row append performed by a successful swipe insert, before its
trigger runs. -/
def swipeAppend (db : DB) (row : SwipeRow) : DB :=
  { db with swipes := db.swipes ++ [row], nextId := db.nextId + 1 }

/-- `UPDATE matches SET is_favorite = b WHERE id = mid`: the favorite update
issued by `useMatches.toggleFavorite` and `RecipeDetailScreen.toggleFavorite`. -/
def dbSetFavorite (db : DB) (mid : Nat) (b : Bool) : DB :=
  { db with
    matchRows := db.matchRows.map (fun m => if m.id == mid then { m with is_favorite := b } else m) }

/-- The push message built by `sendMatchNotification`: recipient token, title,
body and the routing payload (`data.type`, `data.recipeName`). -/
structure Envelope where
  toToken : String
  title : String
  body : String
  dataType : String
  dataRecipeName : String
deriving DecidableEq, Repr

/-- The result object of `useSwipes.recordSwipe` (`SwipeResult` in the
source). `matchRow` stands for the source's `match` field, a Lean keyword. -/
structure SwipeResult where
  swipe : Option SwipeRow
  isMatch : Bool
  matchRow : Option MatchRow
  error : Option StoreErr
deriving DecidableEq, Repr

/-- Storage-unavailability injection for the four fallible storage calls made
by one `recordSwipe` invocation, in source order: the swipe insert, the
partner-swipe lookup, the existing-match lookup (whose error the source
discards) and the match insert. -/
structure Faults where
  swipeInsertFault : Bool
  partnerLookupFault : Bool
  existingLookupFault : Bool
  matchInsertFault : Bool
deriving DecidableEq, Repr

/-- All storage calls succeed. -/
def noFaults : Faults := ⟨false, false, false, false⟩

/-- What one `recordSwipe` call leaves behind: the datastore, the
`SwipeResult` handed to the caller, and every envelope submitted to the push
gateway during the call (the source submits none on any path). -/
structure RecordOut where
  db : DB
  result : SwipeResult
  sent : List Envelope
deriving DecidableEq, Repr

/-- `useSwipes.recordSwipe`, translated branch by branch from the hook: insert
the swipe (returning any insert error to the caller), stop on a dislike or a
missing partner, look up the partner's `like` (a lookup failure is logged and
absorbed: the swipe is reported with no match and no error), then check for an
existing match and otherwise insert one (an insert failure is likewise logged
and absorbed). The swipe insert itself carries the `check_for_match` trigger. -/
def recordSwipe (db : DB) (f : Faults) (userId recipeId coupleId : Nat)
    (partnerId : Option Nat) (direction : Direction) (now : Nat) : RecordOut :=
  if f.swipeInsertFault then
    ⟨db, ⟨none, false, none, some .storageFailure⟩, []⟩
  else
    match swipesInsert db userId recipeId coupleId direction now with
    | .error e => ⟨db, ⟨none, false, none, some e⟩, []⟩
    | .ok (db1, swipe) =>
      if direction == Direction.dislike then
        ⟨db1, ⟨some swipe, false, none, none⟩, []⟩
      else
        match partnerId with
        | none => ⟨db1, ⟨some swipe, false, none, none⟩, []⟩
        | some pid =>
          if f.partnerLookupFault then
            ⟨db1, ⟨some swipe, false, none, none⟩, []⟩
          else
            match db1.swipes.find? (fun s => s.user_id == pid && s.recipe_id == recipeId
                && s.couple_id == coupleId && s.direction == Direction.like) with
            | none => ⟨db1, ⟨some swipe, false, none, none⟩, []⟩
            | some _ =>
              match (if f.existingLookupFault then none
                     else matchFor db1.matchRows coupleId recipeId) with
              | some existing => ⟨db1, ⟨some swipe, true, some existing, none⟩, []⟩
              | none =>
                if f.matchInsertFault then
                  ⟨db1, ⟨some swipe, false, none, none⟩, []⟩
                else
                  match matchFor db1.matchRows coupleId recipeId with
                  | some _ => ⟨db1, ⟨some swipe, false, none, none⟩, []⟩
                  | none =>
                    let m : MatchRow := ⟨db1.nextId, coupleId, recipeId, false, now⟩
                    ⟨{ db1 with matchRows := db1.matchRows ++ [m], nextId := db1.nextId + 1 },
                     ⟨some swipe, true, some m, none⟩, []⟩

/-- How `SwipeScreen` derives the `partnerId` it hands to `useSwipes`: the
other slot of the loaded couple (`user1_id === user.id ? user2_id : user1_id`). -/
def screenPartner (db : DB) (coupleId userId : Nat) : Option Nat :=
  match findCouple db.couples coupleId with
  | some cpl => if cpl.user1_id == userId then cpl.user2_id else some cpl.user1_id
  | none => none

/-- What one `useMatches.toggleFavorite` call leaves behind: the datastore,
the hook's local `matches` state, whether the catch path set the hook error,
and whether an `UPDATE` was issued to the store at all. -/
structure ToggleOut where
  db : DB
  matchesState : List MatchRow
  errSet : Bool
  issuedUpdate : Bool
deriving DecidableEq, Repr

/-- `useMatches.toggleFavorite`: find the match in the locally fetched list
(returning silently when absent), issue the `is_favorite` update for that id,
and on success mirror the flip into the local state; an update failure is
caught, logged and stored in the hook's error state. -/
def toggleFavorite (db : DB) (matchesState : List MatchRow) (matchId : Nat)
    (updateFault : Bool) : ToggleOut :=
  match matchesState.find? (fun m => m.id == matchId) with
  | none => ⟨db, matchesState, false, false⟩
  | some m =>
    let newFavoriteStatus := !m.is_favorite
    if updateFault then
      ⟨db, matchesState, true, true⟩
    else
      ⟨dbSetFavorite db matchId newFavoriteStatus,
       matchesState.map (fun x =>
         if x.id == matchId then { x with is_favorite := newFavoriteStatus } else x),
       false, true⟩

/-- A row of `profiles` as `sendMatchNotification` reads it: the id and the
`push_token` column added by the push-token migration. -/
structure ProfileRow where
  id : Nat
  push_token : Option String
deriving DecidableEq, Repr

/-- What the external Expo push gateway does with the one `fetch`:
accept, answer with an `errors` payload, or fail at the network level
(the thrown error the source catches). -/
inductive GatewayOutcome where
  | ok
  | respErrors
  | netFail
deriving DecidableEq, Repr

/-- The recipient's registered delivery endpoint: the `push_token` of the
profile row with the recipient's id, when present. -/
def lookupPushToken (profiles : List ProfileRow) (uid : Nat) : Option String :=
  (profiles.find? (fun p => p.id == uid)).bind (fun p => p.push_token)

/-- The message object `sendMatchNotification` builds. -/
def mkMatchMessage (token recipeName : String) : Envelope :=
  ⟨token, "It's a Match!",
   "You both liked \"" ++ recipeName ++ "\"! Time to add it to your meal plan.",
   "match", recipeName⟩

/-- `sendMatchNotification`: look up the recipient's push token (no token: warn
and return `false` with nothing submitted), build one message and submit it
once to the gateway; a gateway `errors` payload or a thrown network error is
logged and yields `false`. The function never throws to its caller and issues
no write to the datastore. -/
def sendMatchNotification (profiles : List ProfileRow) (g : GatewayOutcome)
    (recipientUserId : Nat) (recipeName : String) : Bool × List Envelope :=
  match lookupPushToken profiles recipientUserId with
  | none => (false, [])
  | some token =>
    let message := mkMatchMessage token recipeName
    match g with
    | .ok => (true, [message])
    | .respErrors => (false, [message])
    | .netFail => (false, [message])

/-- The channel statuses the supabase client reports to the `subscribe`
callback of `useRealtime`. -/
inductive ChannelStatus where
  | SUBSCRIBED
  | TIMED_OUT
  | CLOSED
  | CHANNEL_ERROR
deriving DecidableEq, Repr

/-- `RealtimeConnectionState` of `useRealtime`: the `connected` flag and the
stored connection error (the source's `new Error` message string). -/
structure ConnState where
  connected : Bool
  connError : Option String
deriving DecidableEq, Repr

/-- The hook's full local state: the connection state, the current channel
instance (by identity) and a counter standing for fresh channel creation. -/
structure HookState where
  connState : ConnState
  channel : Option Nat
  nextChannel : Nat
deriving DecidableEq, Repr

/-- The status callback `useRealtime.subscribe` installs: `SUBSCRIBED` sets
`connected`, `CLOSED` and `CHANNEL_ERROR` clear it and store an error; any
other status is ignored. The callback touches nothing but the connection
state: in particular it never creates a channel or re-subscribes. -/
def onStatus (h : HookState) (status : ChannelStatus) : HookState :=
  match status with
  | .SUBSCRIBED => { h with connState := ⟨true, none⟩ }
  | .CLOSED => { h with connState := ⟨false, some "Connection CLOSED"⟩ }
  | .CHANNEL_ERROR => { h with connState := ⟨false, some "Connection CHANNEL_ERROR"⟩ }
  | .TIMED_OUT => h

/-- A (possibly empty) stream of statuses delivered to one hook instance. -/
def runStatuses (h : HookState) (l : List ChannelStatus) : HookState :=
  l.foldl onStatus h

/-- `useRealtime.subscribe`: a no-op without a couple id or when disabled;
otherwise it unsubscribes any existing channel and installs a freshly created
channel instance. It does not itself touch the connection state. -/
def subscribeCall (h : HookState) (coupleId : Option Nat) (enabled : Bool) : HookState :=
  if coupleId.isNone || !enabled then h
  else { h with channel := some h.nextChannel, nextChannel := h.nextChannel + 1 }

/-- `useRealtime.unsubscribe`: with a channel present, drop it and reset the
connection state; otherwise a no-op. -/
def unsubscribeCall (h : HookState) : HookState :=
  match h.channel with
  | some _ => ⟨⟨false, none⟩, none, h.nextChannel⟩
  | none => h

/-- One client-visible operation of the core pipeline, the state-changing
calls the application issues against the embedded tables: a swipe through
`SwipeScreen`/`useSwipes.recordSwipe` (`partnerKnown` is whether the screen
had a partner slot loaded when it derived `partnerId`), a bare ledger write
through the `recordSwipe` helper of `lib/supabase.ts`, and a favorite update. -/
inductive Op where
  | swipeOp (f : Faults) (userId recipeId coupleId : Nat) (partnerKnown : Bool)
      (d : Direction) (now : Nat)
  | swipeDirect (userId recipeId coupleId : Nat) (d : Direction) (now : Nat)
  | setFavorite (matchId : Nat) (fav : Bool)
deriving DecidableEq, Repr

/-- The datastore effect of one operation. -/
def applyOp (db : DB) : Op → DB
  | .swipeOp f u r c pk d now =>
    (recordSwipe db f u r c (if pk then screenPartner db c u else none) d now).db
  | .swipeDirect u r c d now =>
    match swipesInsert db u r c d now with
    | .ok (db1, _) => db1
    | .error _ => db
  | .setFavorite mid b => dbSetFavorite db mid b

/-- A serialisation of any finite set of concurrent operations: the storage
statements execute atomically in some order. -/
def applyOps (db : DB) (l : List Op) : DB :=
  l.foldl applyOp db

/-- The `unique_couple_recipe_match` key of a `matches` row. -/
def matchKey (m : MatchRow) : Nat × Nat :=
  (m.couple_id, m.recipe_id)

/-- At most one `matches` row per `(couple_id, recipe_id)`: the
`unique_couple_recipe_match` constraint. -/
def MatchesUnique (ms : List MatchRow) : Prop :=
  List.Pairwise (fun m1 m2 => matchKey m1 ≠ matchKey m2) ms

instance matchesUniqueDecidable (ms : List MatchRow) :
    Decidable (MatchesUnique ms) := by
  unfold MatchesUnique
  infer_instance

/-- One match row is justified by the ledger: its couple exists, is complete,
and both of its actors have a recorded `like` for the matched recipe. -/
def matchIsJustified (couples : List Couple) (swipes : List SwipeRow) (m : MatchRow) : Bool :=
  match findCouple couples m.couple_id with
  | some cpl =>
    match cpl.user2_id with
    | some u2 =>
      hasLike swipes cpl.user1_id m.recipe_id m.couple_id
        && hasLike swipes u2 m.recipe_id m.couple_id
    | none => false
  | none => false

/-- Every match row of the store is justified by the ledger. -/
def matchesJustified (db : DB) : Bool :=
  db.matchRows.all (matchIsJustified db.couples db.swipes)

/-- Every ledger row was written by a member of its couple (what the
row-level-security insert check enforces). -/
def swipesAuthorized (db : DB) : Bool :=
  db.swipes.all (fun s => swipeAllowed db.couples s.user_id s.couple_id)

/-- The state invariant carried through every operation: authorized ledger
rows and justified matches. -/
def coreInv (db : DB) : Bool :=
  swipesAuthorized db && matchesJustified db

/-- A concrete couple store: couple `1` pairing users `10` and `11`. -/
def exCouples : List Couple :=
  [⟨1, 10, some 11⟩]

/-- Concrete store: user `11` has already liked recipe `5`; no match yet. -/
def exDb1 : DB :=
  ⟨exCouples, [⟨0, 11, 5, 1, Direction.like⟩], [], 1⟩

/-- The same store with the match row already present, exactly as the run on
`exDb1` would create it. -/
def exDb2 : DB :=
  ⟨exCouples, [⟨0, 11, 5, 1, Direction.like⟩], [⟨2, 1, 5, false, 7⟩], 1⟩

/-- Concrete store for the completed-match scenario: user `10` liked recipe
`5` earlier; user `11` has not swiped yet. -/
def exDb4 : DB :=
  ⟨exCouples, [⟨0, 10, 5, 1, Direction.like⟩], [], 1⟩

/-- A fresh store holding one complete couple and nothing else. -/
def raceDb0 (cid a b n : Nat) : DB :=
  ⟨[⟨cid, a, some b⟩], [], [], n⟩

/-- The operations of the race scenario: each element is one fault-free `like`
submission for recipe `r` in couple `cid`, by actor `a` when the flag is
`true` and by actor `b` otherwise, carrying its own timestamp. -/
def raceOps (cid a b r : Nat) (l : List (Bool × Nat)) : List Op :=
  l.map (fun p => Op.swipeOp noFaults (if p.1 then a else b) r cid true Direction.like p.2)

/-- The ledger/match shape every state of the race scenario keeps: the couple
row is intact, every ledger row is a `like` for `(r, cid)` by one of the two
actors, the two presence flags track who has swiped, and the match count for
`(cid, r)` is `1` exactly when both have. -/
def RaceInv (cid a b r : Nat) (db : DB) (aS bS : Bool) : Prop :=
  findCouple db.couples cid = some ⟨cid, a, some b⟩ ∧
  (∀ s ∈ db.swipes, s.recipe_id = r ∧ s.couple_id = cid ∧
    s.direction = Direction.like ∧ (s.user_id = a ∨ s.user_id = b)) ∧
  hasSwipe db.swipes a r cid = aS ∧
  hasSwipe db.swipes b r cid = bS ∧
  (matchesFor db.matchRows cid r).length = (if aS && bS then 1 else 0)

/-! ## Bridging lemmas between the executable queries and their meaning -/

lemma matchFor_eq_none_iff (ms : List MatchRow) (c r : Nat) :
    matchFor ms c r = none ↔ ∀ m ∈ ms, matchKey m ≠ (c, r) := by
  simp [matchFor, List.find?_eq_none, matchKey, Prod.ext_iff, not_and]

lemma matchFor_isSome_of_mem {ms : List MatchRow} {m : MatchRow} (hm : m ∈ ms)
    {c r : Nat} (hk : matchKey m = (c, r)) : (matchFor ms c r).isSome := by
  rw [matchFor, List.find?_isSome]
  refine ⟨m, hm, ?_⟩
  simp only [matchKey, Prod.mk.injEq] at hk
  simp [hk.1, hk.2]

lemma matchFor_mem_key {ms : List MatchRow} {c r : Nat} {m : MatchRow}
    (h : matchFor ms c r = some m) : m ∈ ms ∧ matchKey m = (c, r) := by
  refine ⟨List.mem_of_find?_eq_some h, ?_⟩
  have := List.find?_some h
  simp only [Bool.and_eq_true, beq_iff_eq] at this
  simp [matchKey, this.1, this.2]

lemma matchesFor_eq_nil_iff (ms : List MatchRow) (c r : Nat) :
    matchesFor ms c r = [] ↔ ∀ m ∈ ms, matchKey m ≠ (c, r) := by
  simp [matchesFor, List.filter_eq_nil_iff, matchKey, Prod.ext_iff, not_and]

/-! ## Preservation of the `unique_couple_recipe_match` key -/

lemma matchesUnique_append {ms : List MatchRow} {row : MatchRow}
    (hu : MatchesUnique ms)
    (habs : matchFor ms row.couple_id row.recipe_id = none) :
    MatchesUnique (ms ++ [row]) := by
  unfold MatchesUnique at hu ⊢
  rw [List.pairwise_append]
  refine ⟨hu, List.pairwise_singleton _ _, ?_⟩
  intro m hm m' hm'
  rw [List.mem_singleton] at hm'
  subst hm'
  exact (matchFor_eq_none_iff ms _ _).1 habs m hm

lemma matchesUnique_matchUpsertIgnore {db : DB} (c r now : Nat)
    (hu : MatchesUnique db.matchRows) :
    MatchesUnique (matchUpsertIgnore db c r now).matchRows := by
  unfold matchUpsertIgnore
  split
  · exact hu
  · next habs => exact matchesUnique_append hu habs

lemma matchesUnique_checkForMatch {db : DB} (s : SwipeRow) (now : Nat)
    (hu : MatchesUnique db.matchRows) :
    MatchesUnique (checkForMatch db s now).matchRows := by
  unfold checkForMatch
  split
  · split
    · exact hu
    · split
      · exact matchesUnique_matchUpsertIgnore _ _ _ hu
      · exact hu
  · exact hu

lemma swipesInsert_ok {db : DB} {u r c : Nat} {d : Direction} {now : Nat}
    {db1 : DB} {row : SwipeRow}
    (h : swipesInsert db u r c d now = .ok (db1, row)) :
    swipeAllowed db.couples u c = true ∧ hasSwipe db.swipes u r c = false ∧
    row = ⟨db.nextId, u, r, c, d⟩ ∧
    db1 = checkForMatch (swipeAppend db row) row now := by
  unfold swipesInsert at h
  split at h
  · split at h
    · cases h
    · next hns =>
      cases h
      exact ⟨by assumption, by simpa using hns, rfl, rfl⟩
  · cases h

lemma matchesUnique_recordSwipe (db : DB) (f : Faults) (u r c : Nat)
    (p : Option Nat) (d : Direction) (now : Nat)
    (hu : MatchesUnique db.matchRows) :
    MatchesUnique (recordSwipe db f u r c p d now).db.matchRows := by
  unfold recordSwipe
  split
  · exact hu
  · split
    · exact hu
    · next db1 row heq =>
      obtain ⟨-, -, -, hdb1⟩ := swipesInsert_ok heq
      have hu1 : MatchesUnique db1.matchRows := by
        rw [hdb1]
        exact matchesUnique_checkForMatch _ _ hu
      split
      · exact hu1
      · split
        · exact hu1
        · split
          · exact hu1
          · split
            · exact hu1
            · split
              · exact hu1
              · split
                · exact hu1
                · split
                  · exact hu1
                  · next habs => exact matchesUnique_append hu1 habs

lemma matchesUnique_dbSetFavorite (db : DB) (mid : Nat) (b : Bool)
    (hu : MatchesUnique db.matchRows) :
    MatchesUnique (dbSetFavorite db mid b).matchRows := by
  unfold MatchesUnique at hu ⊢
  unfold dbSetFavorite
  simp only [List.pairwise_map]
  refine hu.imp ?_
  intro m1 m2 h
  have k1 : matchKey (if m1.id == mid then { m1 with is_favorite := b } else m1) = matchKey m1 := by
    split <;> rfl
  have k2 : matchKey (if m2.id == mid then { m2 with is_favorite := b } else m2) = matchKey m2 := by
    split <;> rfl
  rw [k1, k2]
  exact h

lemma matchesUnique_applyOp (db : DB) (op : Op)
    (hu : MatchesUnique db.matchRows) :
    MatchesUnique (applyOp db op).matchRows := by
  cases op with
  | swipeOp f u r c pk d now =>
    simp only [applyOp]
    exact matchesUnique_recordSwipe _ _ _ _ _ _ _ _ hu
  | swipeDirect u r c d now =>
    simp only [applyOp]
    split
    · next db1 row heq =>
      obtain ⟨-, -, -, hdb1⟩ := swipesInsert_ok heq
      rw [hdb1]
      exact matchesUnique_checkForMatch _ _ hu
    · exact hu
  | setFavorite mid b =>
    simp only [applyOp]
    exact matchesUnique_dbSetFavorite _ _ _ hu

lemma matchesUnique_applyOps (db : DB) (l : List Op)
    (hu : MatchesUnique db.matchRows) :
    MatchesUnique (applyOps db l).matchRows := by
  induction l generalizing db with
  | nil => exact hu
  | cons op l ih => exact ih _ (matchesUnique_applyOp _ _ hu)

lemma matchesUnique_iff_count (ms : List MatchRow) :
    MatchesUnique ms ↔ ∀ c r, (matchesFor ms c r).length ≤ 1 := by
  induction ms with
  | nil => simp [MatchesUnique, matchesFor]
  | cons m ms ih =>
    unfold MatchesUnique at ih ⊢
    rw [List.pairwise_cons]
    constructor
    · rintro ⟨hhead, htail⟩ c r
      rw [matchesFor, List.filter_cons]
      split
      · next hpred =>
        have hkey : matchKey m = (c, r) := by
          simp only [Bool.and_eq_true, beq_iff_eq] at hpred
          simp [matchKey, hpred.1, hpred.2]
        have hnil : matchesFor ms c r = [] := by
          rw [matchesFor_eq_nil_iff]
          intro m' hm' hk'
          exact hhead m' hm' (hkey.trans hk'.symm)
        rw [matchesFor] at hnil
        simp [hnil]
      · have htl := ih.1 htail c r
        rw [matchesFor] at htl
        exact htl
    · intro h
      refine ⟨?_, ih.2 ?_⟩
      · intro m' hm' hk
        have hcount := h m.couple_id m.recipe_id
        rw [matchesFor, List.filter_cons] at hcount
        have hpm : (m.couple_id == m.couple_id && m.recipe_id == m.recipe_id) = true := by
          simp
        rw [if_pos hpm] at hcount
        simp only [matchKey, Prod.mk.injEq] at hk
        have hm'in : m' ∈ List.filter
            (fun x => x.couple_id == m.couple_id && x.recipe_id == m.recipe_id) ms := by
          rw [List.mem_filter]
          exact ⟨hm', by simp [← hk.1, ← hk.2]⟩
        have hpos := List.length_pos_of_mem hm'in
        simp only [List.length_cons] at hcount
        omega
      · intro c r
        have hc := h c r
        rw [matchesFor, List.filter_cons] at hc
        rw [matchesFor]
        split at hc
        · simp only [List.length_cons] at hc
          omega
        · exact hc

/-! ## Frame facts of the storage statements -/

lemma matchUpsertIgnore_couples (db : DB) (c r now : Nat) :
    (matchUpsertIgnore db c r now).couples = db.couples := by
  unfold matchUpsertIgnore
  split <;> rfl

lemma matchUpsertIgnore_swipes (db : DB) (c r now : Nat) :
    (matchUpsertIgnore db c r now).swipes = db.swipes := by
  unfold matchUpsertIgnore
  split <;> rfl

lemma checkForMatch_couples (db : DB) (s : SwipeRow) (now : Nat) :
    (checkForMatch db s now).couples = db.couples := by
  unfold checkForMatch
  split
  · split
    · rfl
    · split
      · exact matchUpsertIgnore_couples _ _ _ _
      · rfl
  · rfl

lemma checkForMatch_swipes (db : DB) (s : SwipeRow) (now : Nat) :
    (checkForMatch db s now).swipes = db.swipes := by
  unfold checkForMatch
  split
  · split
    · rfl
    · split
      · exact matchUpsertIgnore_swipes _ _ _ _
      · rfl
  · rfl

/-! ## Preservation of ledger authorization and match justification -/

lemma hasLike_append_left {ss : List SwipeRow} (l : List SwipeRow) {u r c : Nat}
    (h : hasLike ss u r c = true) : hasLike (ss ++ l) u r c = true := by
  rw [hasLike, List.any_append]
  rw [hasLike] at h
  simp [h]

lemma hasLike_of_mem {ss : List SwipeRow} {s : SwipeRow} (hmem : s ∈ ss)
    (hd : s.direction = Direction.like) :
    hasLike ss s.user_id s.recipe_id s.couple_id = true := by
  rw [hasLike, List.any_eq_true]
  exact ⟨s, hmem, by simp [hd]⟩

lemma hasLike_of_find3 {ss : List SwipeRow} {p r c : Nat} {s : SwipeRow}
    (h : ss.find? (fun s => s.user_id == p && s.recipe_id == r && s.couple_id == c)
      = some s)
    (hd : s.direction = Direction.like) : hasLike ss p r c = true := by
  have hmem := List.mem_of_find?_eq_some h
  have hp := List.find?_some h
  simp only [Bool.and_eq_true, beq_iff_eq] at hp
  rw [hasLike, List.any_eq_true]
  exact ⟨s, hmem, by simp [hp.1.1, hp.1.2, hp.2, hd]⟩

lemma hasLike_of_find4 {ss : List SwipeRow} {p r c : Nat} {s : SwipeRow}
    (h : ss.find? (fun s => s.user_id == p && s.recipe_id == r && s.couple_id == c
      && s.direction == Direction.like) = some s) : hasLike ss p r c = true := by
  have hmem := List.mem_of_find?_eq_some h
  have hp := List.find?_some h
  rw [hasLike, List.any_eq_true]
  exact ⟨s, hmem, hp⟩

lemma matchIsJustified_append (couples : List Couple) (ss l : List SwipeRow)
    (m : MatchRow) (h : matchIsJustified couples ss m = true) :
    matchIsJustified couples (ss ++ l) m = true := by
  unfold matchIsJustified at h ⊢
  split at h
  · split at h
    · simp only [Bool.and_eq_true] at h
      simp [hasLike_append_left l h.1, hasLike_append_left l h.2]
    · cases h
  · cases h

lemma matchesJustified_mono_swipes {db : DB} (l : List SwipeRow)
    (h : db.matchRows.all (matchIsJustified db.couples db.swipes) = true) :
    db.matchRows.all (matchIsJustified db.couples (db.swipes ++ l)) = true := by
  rw [List.all_eq_true] at h ⊢
  intro m hm
  exact matchIsJustified_append _ _ _ _ (h m hm)

lemma matchIsJustified_mk {couples : List Couple} {ss : List SwipeRow}
    {c r u pid i t : Nat} {fav : Bool} {cpl : Couple}
    (hcpl : findCouple couples c = some cpl)
    (hslot : (if cpl.user1_id == u then cpl.user2_id else some cpl.user1_id) = some pid)
    (hauth : (u == cpl.user1_id || cpl.user2_id == some u) = true)
    (hlu : hasLike ss u r c = true)
    (hlp : hasLike ss pid r c = true) :
    matchIsJustified couples ss ⟨i, c, r, fav, t⟩ = true := by
  show (match findCouple couples c with
    | some cpl =>
      match cpl.user2_id with
      | some u2 => hasLike ss cpl.user1_id r c && hasLike ss u2 r c
      | none => false
    | none => false) = true
  rw [hcpl]
  show (match cpl.user2_id with
    | some u2 => hasLike ss cpl.user1_id r c && hasLike ss u2 r c
    | none => false) = true
  by_cases h1 : cpl.user1_id = u
  · rw [if_pos (by simpa using h1)] at hslot
    rw [hslot]
    show (hasLike ss cpl.user1_id r c && hasLike ss pid r c) = true
    simp only [Bool.and_eq_true]
    exact ⟨h1 ▸ hlu, hlp⟩
  · rw [if_neg (by simpa using h1)] at hslot
    have hpid : pid = cpl.user1_id := by
      cases hslot
      rfl
    have h2 : cpl.user2_id = some u := by
      rcases Bool.or_eq_true_iff.1 hauth with h | h
      · exact absurd (beq_iff_eq.1 h).symm h1
      · simpa using h
    rw [h2]
    show (hasLike ss cpl.user1_id r c && hasLike ss u r c) = true
    simp only [Bool.and_eq_true]
    exact ⟨hpid ▸ hlp, hlu⟩

lemma partnerSwipeDirection_like {ss : List SwipeRow} {po : Option Nat} {r c : Nat}
    (h : partnerSwipeDirection ss po r c = some Direction.like) :
    ∃ p, po = some p ∧ hasLike ss p r c = true := by
  unfold partnerSwipeDirection at h
  cases po with
  | none => cases h
  | some p =>
    refine ⟨p, rfl, ?_⟩
    rw [Option.map_eq_some'] at h
    obtain ⟨srow, hfind, hdir⟩ := h
    exact hasLike_of_find3 hfind hdir

lemma matchesJustified_checkForMatch {db : DB} {s : SwipeRow} (now : Nat)
    (hmem : s ∈ db.swipes)
    (hauth : swipeAllowed db.couples s.user_id s.couple_id = true)
    (hj : db.matchRows.all (matchIsJustified db.couples db.swipes) = true) :
    (checkForMatch db s now).matchRows.all
      (matchIsJustified db.couples db.swipes) = true := by
  unfold checkForMatch
  split
  · next hdir =>
    split
    · exact hj
    · next cpl hcpl =>
      split
      · next hpd =>
        unfold matchUpsertIgnore
        split
        · exact hj
        · rw [List.all_append]
          simp only [Bool.and_eq_true]
          refine ⟨hj, ?_⟩
          simp only [List.all_cons, List.all_nil, Bool.and_true]
          obtain ⟨pid, hpid, hlp⟩ := partnerSwipeDirection_like hpd
          rw [sqlPartner] at hpid
          rw [swipeAllowed, hcpl] at hauth
          have hlu : hasLike db.swipes s.user_id s.recipe_id s.couple_id = true :=
            hasLike_of_mem hmem (by simpa using hdir)
          exact matchIsJustified_mk hcpl hpid hauth hlu hlp
      · exact hj
  · exact hj

lemma swipesAuthorized_checkForMatch (db : DB) (s : SwipeRow) (now : Nat) :
    swipesAuthorized (checkForMatch db s now) = swipesAuthorized db := by
  rw [swipesAuthorized, swipesAuthorized, checkForMatch_couples, checkForMatch_swipes]

lemma coreInv_swipesInsert {db : DB} {u r c : Nat} {d : Direction} {now : Nat}
    {db1 : DB} {row : SwipeRow}
    (h : swipesInsert db u r c d now = .ok (db1, row))
    (hinv : coreInv db = true) : coreInv db1 = true := by
  obtain ⟨hallow, hns, hrow, hdb1⟩ := swipesInsert_ok h
  rw [coreInv, Bool.and_eq_true] at hinv
  obtain ⟨hA, hJ⟩ := hinv
  have hAmid : swipesAuthorized (swipeAppend db row) = true := by
    rw [swipesAuthorized, List.all_eq_true]
    intro s hs
    rcases List.mem_append.1 hs with hs | hs
    · exact (List.all_eq_true.1 hA) s hs
    · rw [List.mem_singleton] at hs
      subst hs
      rw [hrow]
      exact hallow
  have hJmid : (swipeAppend db row).matchRows.all
      (matchIsJustified (swipeAppend db row).couples (swipeAppend db row).swipes)
      = true :=
    matchesJustified_mono_swipes [row] hJ
  have hmemrow : row ∈ (swipeAppend db row).swipes := by
    simp [swipeAppend]
  have hauthrow : swipeAllowed (swipeAppend db row).couples row.user_id
      row.couple_id = true := by
    rw [hrow]
    exact hallow
  have hJ1 := matchesJustified_checkForMatch now hmemrow hauthrow hJmid
  rw [coreInv, Bool.and_eq_true, hdb1]
  constructor
  · rw [swipesAuthorized_checkForMatch]
    exact hAmid
  · rw [matchesJustified, checkForMatch_couples, checkForMatch_swipes]
    exact hJ1

lemma swipeAllowed_eq {couples : List Couple} {u c : Nat} {cpl : Couple}
    (hcpl : findCouple couples c = some cpl) :
    swipeAllowed couples u c = (u == cpl.user1_id || cpl.user2_id == some u) := by
  unfold swipeAllowed
  rw [hcpl]

lemma coreInv_recordSwipe (db : DB) (f : Faults) (u r c : Nat) (p : Option Nat)
    (d : Direction) (now : Nat)
    (hp : p = none ∨ p = screenPartner db c u)
    (hinv : coreInv db = true) :
    coreInv (recordSwipe db f u r c p d now).db = true := by
  unfold recordSwipe
  split
  · exact hinv
  · split
    · exact hinv
    · next db1 row heq =>
      have hinv1 : coreInv db1 = true := coreInv_swipesInsert heq hinv
      obtain ⟨hallow, hns, hrow, hdb1⟩ := swipesInsert_ok heq
      have hc1 : db1.couples = db.couples := by
        rw [hdb1, checkForMatch_couples]
        rfl
      have hs1 : db1.swipes = db.swipes ++ [row] := by
        rw [hdb1, checkForMatch_swipes]
        rfl
      split
      · exact hinv1
      · next hdisl =>
        split
        · exact hinv1
        · next pid =>
          split
          · exact hinv1
          · split
            · exact hinv1
            · next psw hfind =>
              split
              · exact hinv1
              · split
                · exact hinv1
                · split
                  · exact hinv1
                  · next habs =>
                    rw [coreInv, Bool.and_eq_true] at hinv1
                    obtain ⟨hA1, hJ1⟩ := hinv1
                    have hscreen : screenPartner db c u = some pid := by
                      rcases hp with hh | hh
                      · cases hh
                      · exact hh.symm
                    unfold screenPartner at hscreen
                    split at hscreen
                    · next cpl hcpl =>
                      have hd : d = Direction.like := by
                        cases d
                        · rfl
                        · exact absurd rfl hdisl
                      have hauthb : (u == cpl.user1_id || cpl.user2_id == some u)
                          = true := by
                        rw [swipeAllowed_eq hcpl] at hallow
                        exact hallow
                      have hlu : hasLike db1.swipes u r c = true := by
                        rw [hs1, hrow]
                        exact hasLike_of_mem
                          (s := ⟨db.nextId, u, r, c, d⟩) (by simp) hd
                      have hlp : hasLike db1.swipes pid r c = true :=
                        hasLike_of_find4 hfind
                      rw [coreInv, Bool.and_eq_true]
                      constructor
                      · exact hA1
                      · show ((db1.matchRows
                            ++ [(⟨db1.nextId, c, r, false, now⟩ : MatchRow)]).all
                          (matchIsJustified db1.couples db1.swipes)) = true
                        rw [List.all_append]
                        simp only [Bool.and_eq_true]
                        refine ⟨hJ1, ?_⟩
                        simp only [List.all_cons, List.all_nil, Bool.and_true]
                        refine matchIsJustified_mk ?_ hscreen ?_ hlu hlp
                        · rw [hc1]
                          exact hcpl
                        · exact hauthb
                    · cases hscreen

lemma coreInv_dbSetFavorite (db : DB) (mid : Nat) (b : Bool)
    (hinv : coreInv db = true) : coreInv (dbSetFavorite db mid b) = true := by
  rw [coreInv, Bool.and_eq_true] at hinv ⊢
  obtain ⟨hA, hJ⟩ := hinv
  refine ⟨hA, ?_⟩
  show ((db.matchRows.map (fun m =>
    if m.id == mid then { m with is_favorite := b } else m)).all
    (matchIsJustified db.couples db.swipes)) = true
  rw [List.all_eq_true]
  intro m hm
  rw [List.mem_map] at hm
  obtain ⟨m0, hm0, rfl⟩ := hm
  have hsame : matchIsJustified db.couples db.swipes
      (if m0.id == mid then { m0 with is_favorite := b } else m0)
      = matchIsJustified db.couples db.swipes m0 := by
    split <;> rfl
  rw [hsame]
  exact List.all_eq_true.1 hJ m0 hm0

lemma coreInv_applyOp (db : DB) (op : Op) (hinv : coreInv db = true) :
    coreInv (applyOp db op) = true := by
  cases op with
  | swipeOp f u r c pk d now =>
    simp only [applyOp]
    refine coreInv_recordSwipe _ _ _ _ _ _ _ _ ?_ hinv
    cases pk
    · exact Or.inl rfl
    · exact Or.inr rfl
  | swipeDirect u r c d now =>
    simp only [applyOp]
    split
    · next db1 row heq => exact coreInv_swipesInsert heq hinv
    · exact hinv
  | setFavorite mid b =>
    simp only [applyOp]
    exact coreInv_dbSetFavorite _ _ _ hinv

lemma coreInv_applyOps (db : DB) (l : List Op) (hinv : coreInv db = true) :
    coreInv (applyOps db l) = true := by
  induction l generalizing db with
  | nil => exact hinv
  | cons op l ih => exact ih _ (coreInv_applyOp _ _ hinv)

lemma matchFor_none_of_missing_like {db : DB} {cid r : Nat} {cpl : Couple} {u2 : Nat}
    (hj : matchesJustified db = true)
    (hcpl : findCouple db.couples cid = some cpl)
    (hu2 : cpl.user2_id = some u2)
    (hmiss : hasLike db.swipes cpl.user1_id r cid = false
      ∨ hasLike db.swipes u2 r cid = false) :
    matchFor db.matchRows cid r = none := by
  cases hfor : matchFor db.matchRows cid r with
  | none => rfl
  | some m =>
    exfalso
    obtain ⟨hmem, hkey⟩ := matchFor_mem_key hfor
    have hjm := List.all_eq_true.1 hj m hmem
    simp only [matchKey, Prod.mk.injEq] at hkey
    rw [matchIsJustified] at hjm
    rw [hkey.1, hkey.2, hcpl] at hjm
    have hjm2 : (match cpl.user2_id with
      | some u2 => hasLike db.swipes cpl.user1_id r cid && hasLike db.swipes u2 r cid
      | none => false) = true := hjm
    rw [hu2] at hjm2
    have hjm3 : (hasLike db.swipes cpl.user1_id r cid
      && hasLike db.swipes u2 r cid) = true := hjm2
    simp only [Bool.and_eq_true] at hjm3
    rcases hmiss with hmiss | hmiss
    · rw [hjm3.1] at hmiss
      cases hmiss
    · rw [hjm3.2] at hmiss
      cases hmiss

/-! ## The two-actor race scenario -/

lemma hasSwipe_append (ss : List SwipeRow) (row : SwipeRow) (u r c : Nat) :
    hasSwipe (ss ++ [row]) u r c
      = (hasSwipe ss u r c
        || (row.user_id == u && row.recipe_id == r && row.couple_id == c)) := by
  rw [hasSwipe, hasSwipe, List.any_append]
  simp

lemma race_psd {ss : List SwipeRow} {w r cid : Nat}
    (hlike : ∀ s ∈ ss, s.direction = Direction.like) :
    partnerSwipeDirection ss (some w) r cid
      = (if hasSwipe ss w r cid then some Direction.like else none) := by
  unfold partnerSwipeDirection
  cases hfind : ss.find?
      (fun s => s.user_id == w && s.recipe_id == r && s.couple_id == cid) with
  | none =>
    have hfalse : hasSwipe ss w r cid = false := by
      rw [List.find?_eq_none] at hfind
      rw [hasSwipe]
      rw [Bool.eq_false_iff]
      intro hany
      rw [List.any_eq_true] at hany
      obtain ⟨s, hs, hp⟩ := hany
      exact hfind s hs hp
    rw [hfalse]
    simp [hfind]
  | some s =>
    have hmem := List.mem_of_find?_eq_some hfind
    have hp := List.find?_some hfind
    have htrue : hasSwipe ss w r cid = true := by
      rw [hasSwipe, List.any_eq_true]
      exact ⟨s, hmem, hp⟩
    rw [htrue]
    simp [hfind, hlike s hmem]

lemma race_find4_none {ss : List SwipeRow} {w r cid : Nat}
    (h : hasSwipe ss w r cid = false) :
    ss.find? (fun s => s.user_id == w && s.recipe_id == r && s.couple_id == cid
      && s.direction == Direction.like) = none := by
  rw [List.find?_eq_none]
  intro s hs hp
  simp only [Bool.and_eq_true] at hp
  rw [hasSwipe, Bool.eq_false_iff] at h
  apply h
  rw [List.any_eq_true]
  exact ⟨s, hs, by simp [hp.1.1.1, hp.1.1.2, hp.1.2]⟩

lemma race_find4_isSome {ss : List SwipeRow} {w r cid : Nat}
    (h : hasSwipe ss w r cid = true)
    (hlike : ∀ s ∈ ss, s.direction = Direction.like) :
    (ss.find? (fun s => s.user_id == w && s.recipe_id == r && s.couple_id == cid
      && s.direction == Direction.like)).isSome := by
  rw [List.find?_isSome]
  rw [hasSwipe, List.any_eq_true] at h
  obtain ⟨s, hs, hp⟩ := h
  simp only [Bool.and_eq_true] at hp
  exact ⟨s, hs, by simp [hp.1.1, hp.1.2, hp.2, hlike s hs]⟩

lemma screenPartner_eq {db : DB} {cid u : Nat} {cpl : Couple}
    (hcpl : findCouple db.couples cid = some cpl) :
    screenPartner db cid u = sqlPartner cpl u := by
  unfold screenPartner sqlPartner
  rw [hcpl]

lemma matchFor_append_hit {ms : List MatchRow} {c r : Nat} {m : MatchRow}
    (h : matchFor ms c r = none) (hk1 : m.couple_id = c) (hk2 : m.recipe_id = r) :
    matchFor (ms ++ [m]) c r = some m := by
  induction ms with
  | nil => simp [matchFor, hk1, hk2]
  | cons x xs ih =>
    rw [matchFor] at h ⊢
    rw [List.find?_cons] at h
    rw [List.cons_append, List.find?_cons]
    split at h
    · cases h
    · exact ih h

lemma recordSwipe_dup {db : DB} {u r cid : Nat} {p : Option Nat} {d : Direction}
    {t : Nat}
    (hallow : swipeAllowed db.couples u cid = true)
    (hdup : hasSwipe db.swipes u r cid = true) :
    recordSwipe db noFaults u r cid p d t
      = ⟨db, ⟨none, false, none, some .uniqueViolation⟩, []⟩ := by
  unfold recordSwipe swipesInsert
  simp [noFaults, hallow, hdup]

lemma recordSwipe_like_miss {db : DB} {u r cid w t : Nat} {cpl : Couple}
    (hcpl : findCouple db.couples cid = some cpl)
    (hallow : swipeAllowed db.couples u cid = true)
    (hslot : sqlPartner cpl u = some w)
    (hnew : hasSwipe db.swipes u r cid = false)
    (hW : hasSwipe db.swipes w r cid = false)
    (huw : (u == w) = false)
    (hlike : ∀ s ∈ db.swipes, s.direction = Direction.like) :
    recordSwipe db noFaults u r cid (some w) Direction.like t
      = ⟨⟨db.couples, db.swipes ++ [⟨db.nextId, u, r, cid, Direction.like⟩],
          db.matchRows, db.nextId + 1⟩,
        ⟨some ⟨db.nextId, u, r, cid, Direction.like⟩, false, none, none⟩, []⟩ := by
  have hlike1 : ∀ s ∈ db.swipes ++ [(⟨db.nextId, u, r, cid, Direction.like⟩ : SwipeRow)],
      s.direction = Direction.like := by
    intro s hs
    rcases List.mem_append.1 hs with hs | hs
    · exact hlike s hs
    · rw [List.mem_singleton] at hs
      subst hs
      rfl
  have hswext : hasSwipe
      (db.swipes ++ [(⟨db.nextId, u, r, cid, Direction.like⟩ : SwipeRow)]) w r cid
      = false := by
    rw [hasSwipe_append, hW]
    simp [huw]
  unfold recordSwipe swipesInsert checkForMatch
  simp only [noFaults, hallow, hnew, Bool.false_eq_true, if_false, if_true,
    Bool.true_eq_false, swipeAppend]
  simp only [hcpl, hslot, race_psd hlike1, hswext]
  simp [race_find4_none hswext]

lemma recordSwipe_like_hit {db : DB} {u r cid w t : Nat} {cpl : Couple}
    (hcpl : findCouple db.couples cid = some cpl)
    (hallow : swipeAllowed db.couples u cid = true)
    (hslot : sqlPartner cpl u = some w)
    (hnew : hasSwipe db.swipes u r cid = false)
    (hW : hasSwipe db.swipes w r cid = true)
    (hM : matchFor db.matchRows cid r = none)
    (hlike : ∀ s ∈ db.swipes, s.direction = Direction.like) :
    recordSwipe db noFaults u r cid (some w) Direction.like t
      = ⟨⟨db.couples, db.swipes ++ [⟨db.nextId, u, r, cid, Direction.like⟩],
          db.matchRows ++ [⟨db.nextId + 1, cid, r, false, t⟩], db.nextId + 2⟩,
        ⟨some ⟨db.nextId, u, r, cid, Direction.like⟩, true,
          some ⟨db.nextId + 1, cid, r, false, t⟩, none⟩, []⟩ := by
  have hlike1 : ∀ s ∈ db.swipes ++ [(⟨db.nextId, u, r, cid, Direction.like⟩ : SwipeRow)],
      s.direction = Direction.like := by
    intro s hs
    rcases List.mem_append.1 hs with hs | hs
    · exact hlike s hs
    · rw [List.mem_singleton] at hs
      subst hs
      rfl
  have hswext : hasSwipe
      (db.swipes ++ [(⟨db.nextId, u, r, cid, Direction.like⟩ : SwipeRow)]) w r cid
      = true := by
    rw [hasSwipe_append, hW]
    simp
  have hfind4 := race_find4_isSome hswext hlike1
  rw [Option.isSome_iff_exists] at hfind4
  obtain ⟨psw, hfind4⟩ := hfind4
  have hhit : matchFor
      (db.matchRows ++ [(⟨db.nextId + 1, cid, r, false, t⟩ : MatchRow)]) cid r
      = some ⟨db.nextId + 1, cid, r, false, t⟩ :=
    matchFor_append_hit hM rfl rfl
  unfold recordSwipe swipesInsert checkForMatch
  simp only [noFaults, hallow, hnew, Bool.false_eq_true, if_false, if_true,
    Bool.true_eq_false, swipeAppend]
  simp only [hcpl, hslot, race_psd hlike1, hswext]
  simp only [matchUpsertIgnore, hM]
  simp [hfind4, hhit]

lemma matchFor_none_of_count0 {ms : List MatchRow} {c r : Nat}
    (h : (matchesFor ms c r).length = 0) : matchFor ms c r = none := by
  rw [List.length_eq_zero] at h
  rw [matchFor_eq_none_iff]
  rw [matchesFor_eq_nil_iff] at h
  exact h

lemma raceStep {cid a b r : Nat} {db : DB} {aS bS : Bool} (hab : a ≠ b)
    (hinv : RaceInv cid a b r db aS bS) (x : Bool) (t : Nat) :
    RaceInv cid a b r
      (applyOp db (Op.swipeOp noFaults (if x then a else b) r cid true
        Direction.like t))
      (aS || x) (bS || !x) := by
  obtain ⟨hcpl, hall, hA, hB, hM⟩ := hinv
  have hlike : ∀ s ∈ db.swipes, s.direction = Direction.like :=
    fun s hs => (hall s hs).2.2.1
  have hba : (b == a) = false := by
    simp [Ne.symm hab]
  have hab2 : (a == b) = false := by
    simp [hab]
  have hallowa : swipeAllowed db.couples a cid = true := by
    rw [swipeAllowed_eq hcpl]
    simp
  have hallowb : swipeAllowed db.couples b cid = true := by
    rw [swipeAllowed_eq hcpl]
    simp
  have hslota : sqlPartner (⟨cid, a, some b⟩ : Couple) a = some b := by
    simp [sqlPartner]
  have hslotb : sqlPartner (⟨cid, a, some b⟩ : Couple) b = some a := by
    simp [sqlPartner, hab2]
  cases x with
  | true =>
    simp only [applyOp, Bool.or_true, Bool.not_true, Bool.or_false,
      Bool.true_eq_false, Bool.false_eq_true, if_true, if_false, ite_true, ite_false]
    rw [screenPartner_eq hcpl, hslota]
    cases haS : aS with
    | true =>
      rw [recordSwipe_dup hallowa ((hA.trans haS))]
      refine ⟨hcpl, hall, (hA.trans haS), hB, ?_⟩
      rw [hM, haS]
    | false =>
      cases hbS : bS with
      | true =>
        have hM0 : (matchesFor db.matchRows cid r).length = 0 := by
          rw [hM, haS]
          simp
        rw [recordSwipe_like_hit hcpl hallowa hslota ((hA.trans haS)) ((hB.trans hbS))
          (matchFor_none_of_count0 hM0) hlike]
        refine ⟨hcpl, ?_, ?_, ?_, ?_⟩
        · intro s hs
          rcases List.mem_append.1 hs with hs | hs
          · exact hall s hs
          · rw [List.mem_singleton] at hs
            subst hs
            exact ⟨rfl, rfl, rfl, Or.inl rfl⟩
        · rw [hasSwipe_append, (hA.trans haS)]
          simp
        · rw [hasSwipe_append, (hB.trans hbS)]
          simp
        · rw [matchesFor, List.filter_append]
          rw [matchesFor] at hM0
          rw [List.length_eq_zero] at hM0
          rw [hM0]
          simp
      | false =>
        rw [recordSwipe_like_miss hcpl hallowa hslota ((hA.trans haS)) ((hB.trans hbS))
          hab2 hlike]
        refine ⟨hcpl, ?_, ?_, ?_, ?_⟩
        · intro s hs
          rcases List.mem_append.1 hs with hs | hs
          · exact hall s hs
          · rw [List.mem_singleton] at hs
            subst hs
            exact ⟨rfl, rfl, rfl, Or.inl rfl⟩
        · rw [hasSwipe_append, (hA.trans haS)]
          simp
        · rw [hasSwipe_append, (hB.trans hbS)]
          simp [hab2]
        · rw [hM, haS, hbS]
          simp
  | false =>
    simp only [applyOp, Bool.or_false, Bool.not_false, Bool.or_true,
      Bool.true_eq_false, Bool.false_eq_true, if_true, if_false, ite_true, ite_false]
    rw [screenPartner_eq hcpl, hslotb]
    cases hbS : bS with
    | true =>
      rw [recordSwipe_dup hallowb ((hB.trans hbS))]
      refine ⟨hcpl, hall, hA, (hB.trans hbS), ?_⟩
      rw [hM, hbS]
    | false =>
      cases haS : aS with
      | true =>
        have hM0 : (matchesFor db.matchRows cid r).length = 0 := by
          rw [hM, hbS]
          simp
        rw [recordSwipe_like_hit hcpl hallowb hslotb ((hB.trans hbS)) ((hA.trans haS))
          (matchFor_none_of_count0 hM0) hlike]
        refine ⟨hcpl, ?_, ?_, ?_, ?_⟩
        · intro s hs
          rcases List.mem_append.1 hs with hs | hs
          · exact hall s hs
          · rw [List.mem_singleton] at hs
            subst hs
            exact ⟨rfl, rfl, rfl, Or.inr rfl⟩
        · rw [hasSwipe_append, (hA.trans haS)]
          simp
        · rw [hasSwipe_append, (hB.trans hbS)]
          simp
        · rw [matchesFor, List.filter_append]
          rw [matchesFor] at hM0
          rw [List.length_eq_zero] at hM0
          rw [hM0]
          simp
      | false =>
        rw [recordSwipe_like_miss hcpl hallowb hslotb ((hB.trans hbS)) ((hA.trans haS))
          hba hlike]
        refine ⟨hcpl, ?_, ?_, ?_, ?_⟩
        · intro s hs
          rcases List.mem_append.1 hs with hs | hs
          · exact hall s hs
          · rw [List.mem_singleton] at hs
            subst hs
            exact ⟨rfl, rfl, rfl, Or.inr rfl⟩
        · rw [hasSwipe_append, (hA.trans haS)]
          simp [hba]
        · rw [hasSwipe_append, (hB.trans hbS)]
          simp
        · rw [hM, haS, hbS]
          simp

lemma raceInv_init (cid a b r n : Nat) :
    RaceInv cid a b r (raceDb0 cid a b n) false false := by
  refine ⟨?_, ?_, rfl, rfl, ?_⟩
  · simp [raceDb0, findCouple]
  · intro s hs
    cases hs
  · simp [raceDb0, matchesFor]

lemma raceRun {cid a b r : Nat} (hab : a ≠ b) (l : List (Bool × Nat)) :
    ∀ (db : DB) (aS bS : Bool), RaceInv cid a b r db aS bS →
    RaceInv cid a b r (applyOps db (raceOps cid a b r l))
      (aS || l.any (fun p => p.1)) (bS || l.any (fun p => !p.1)) := by
  induction l with
  | nil =>
    intro db aS bS hinv
    simpa [applyOps, raceOps] using hinv
  | cons p l ih =>
    intro db aS bS hinv
    simp only [raceOps, List.map_cons, applyOps, List.foldl_cons, List.any_cons]
    have hstep := raceStep hab hinv p.1 p.2
    have hrun := ih _ _ _ hstep
    simp only [raceOps, applyOps] at hrun
    rw [Bool.or_assoc, Bool.or_assoc] at hrun
    exact hrun

/-! ## Support lemmas for the remaining claims -/

lemma hasSwipe_of_keyed {ss : List SwipeRow} {u r c : Nat} {s0 : SwipeRow}
    (h : keyedSwipes ss u r c = [s0]) : hasSwipe ss u r c = true := by
  have hmem : s0 ∈ keyedSwipes ss u r c := by
    rw [h]
    exact List.mem_singleton.2 rfl
  rw [keyedSwipes, List.mem_filter] at hmem
  rw [hasSwipe, List.any_eq_true]
  exact ⟨s0, hmem.1, hmem.2⟩

lemma find4_isSome_of_hasLike {ss : List SwipeRow} {pid r c : Nat}
    (h : hasLike ss pid r c = true) :
    (ss.find? (fun s => s.user_id == pid && s.recipe_id == r && s.couple_id == c
      && s.direction == Direction.like)).isSome := by
  rw [List.find?_isSome]
  rw [hasLike, List.any_eq_true] at h
  exact h

lemma recordSwipe_dislike_matchRows (db : DB) (f : Faults) (u r c : Nat)
    (p : Option Nat) (now : Nat) :
    (recordSwipe db f u r c p Direction.dislike now).db.matchRows
      = db.matchRows := by
  unfold recordSwipe
  split
  · rfl
  · split
    · rfl
    · next db1 row heq =>
      obtain ⟨-, -, hrow, hdb1⟩ := swipesInsert_ok heq
      have hmr : db1.matchRows = db.matchRows := by
        rw [hdb1]
        unfold checkForMatch
        rw [hrow]
        rfl
      show db1.matchRows = db.matchRows
      exact hmr

lemma recordSwipe_absorbs_partnerFault (db : DB) (u r c pid t : Nat)
    (hallow : swipeAllowed db.couples u c = true)
    (hnew : hasSwipe db.swipes u r c = false) :
    recordSwipe db ⟨false, true, false, false⟩ u r c (some pid) Direction.like t
      = ⟨checkForMatch (swipeAppend db ⟨db.nextId, u, r, c, Direction.like⟩)
          ⟨db.nextId, u, r, c, Direction.like⟩ t,
        ⟨some ⟨db.nextId, u, r, c, Direction.like⟩, false, none, none⟩, []⟩ := by
  have hsw : swipesInsert db u r c Direction.like t
      = .ok (checkForMatch (swipeAppend db ⟨db.nextId, u, r, c, Direction.like⟩)
          ⟨db.nextId, u, r, c, Direction.like⟩ t,
        ⟨db.nextId, u, r, c, Direction.like⟩) := by
    unfold swipesInsert
    simp [hallow, hnew, swipeAppend]
  unfold recordSwipe
  rw [hsw]
  rfl

lemma recordSwipe_absorbs_matchInsertFault (db : DB) (u r c pid t : Nat)
    (hallow : swipeAllowed db.couples u c = true)
    (hnew : hasSwipe db.swipes u r c = false)
    (hpl : hasLike db.swipes pid r c = true) :
    recordSwipe db ⟨false, false, true, true⟩ u r c (some pid) Direction.like t
      = ⟨checkForMatch (swipeAppend db ⟨db.nextId, u, r, c, Direction.like⟩)
          ⟨db.nextId, u, r, c, Direction.like⟩ t,
        ⟨some ⟨db.nextId, u, r, c, Direction.like⟩, false, none, none⟩, []⟩ := by
  have hsw : swipesInsert db u r c Direction.like t
      = .ok (checkForMatch (swipeAppend db ⟨db.nextId, u, r, c, Direction.like⟩)
          ⟨db.nextId, u, r, c, Direction.like⟩ t,
        ⟨db.nextId, u, r, c, Direction.like⟩) := by
    unfold swipesInsert
    simp [hallow, hnew, swipeAppend]
  have hpl1 : hasLike (checkForMatch
      (swipeAppend db ⟨db.nextId, u, r, c, Direction.like⟩)
      ⟨db.nextId, u, r, c, Direction.like⟩ t).swipes pid r c = true := by
    rw [checkForMatch_swipes]
    exact hasLike_append_left _ hpl
  have hfind := find4_isSome_of_hasLike hpl1
  rw [Option.isSome_iff_exists] at hfind
  obtain ⟨psw, hfind⟩ := hfind
  unfold recordSwipe
  rw [hsw]
  simp only [hfind]
  rfl

lemma recordSwipe_sent_nil (db : DB) (f : Faults) (u r c : Nat) (p : Option Nat)
    (d : Direction) (now : Nat) :
    (recordSwipe db f u r c p d now).sent = [] := by
  unfold recordSwipe
  split
  · rfl
  · split
    · rfl
    · split
      · rfl
      · split
        · rfl
        · split
          · rfl
          · split
            · rfl
            · split
              · rfl
              · split
                · rfl
                · split
                  · rfl
                  · rfl

lemma setFav_map_proj {α : Type} (ms : List MatchRow) (mid : Nat) (b : Bool)
    (f : MatchRow → α) (hf : ∀ m, f { m with is_favorite := b } = f m) :
    (ms.map (fun m => if m.id == mid then { m with is_favorite := b } else m)).map f
      = ms.map f := by
  rw [List.map_map]
  apply List.map_congr_left
  intro m _
  show f (if m.id == mid then { m with is_favorite := b } else m) = f m
  split
  · exact hf m
  · rfl

lemma runStatuses_frame (h : HookState) (l : List ChannelStatus) :
    (runStatuses h l).channel = h.channel
      ∧ (runStatuses h l).nextChannel = h.nextChannel := by
  induction l generalizing h with
  | nil => exact ⟨rfl, rfl⟩
  | cons s l ih =>
    have hstep : (onStatus h s).channel = h.channel
        ∧ (onStatus h s).nextChannel = h.nextChannel := by
      cases s <;> exact ⟨rfl, rfl⟩
    have := ih (onStatus h s)
    exact ⟨this.1.trans hstep.1, this.2.trans hstep.2⟩

/-! ## Claim theorems -/

/-- C1 (counterexample). The claim says the match-creation call reports
truthfully whether this call inserted the row or found it already present.
It does not: on `exDb1` the call creates the match row (`matchRows` grows by
one) and on `exDb2` the identical call finds it pre-existing (`matchRows`
unchanged), yet the two calls hand the caller exactly the same `SwipeResult`,
so no field of the result distinguishes inserted from found. -/
theorem recordSwipe_insert_report_counterexample :
    matchFor exDb1.matchRows 1 5 = none ∧
    matchFor exDb2.matchRows 1 5 = some ⟨2, 1, 5, false, 7⟩ ∧
    (recordSwipe exDb1 noFaults 10 5 1 (some 11) Direction.like 7).db.matchRows.length
      = exDb1.matchRows.length + 1 ∧
    (recordSwipe exDb2 noFaults 10 5 1 (some 11) Direction.like 7).db.matchRows.length
      = exDb2.matchRows.length ∧
    (recordSwipe exDb1 noFaults 10 5 1 (some 11) Direction.like 7).result
      = (recordSwipe exDb2 noFaults 10 5 1 (some 11) Direction.like 7).result := by
  decide

/-- C1 (amended). Match creation at the storage layer is a genuine atomic
insert-if-absent: the trigger's `INSERT ... ON CONFLICT DO NOTHING`
(`matchUpsertIgnore`) appends the row exactly when the `(couple, recipe)` key
is absent and leaves the store untouched when it is present. But no caller is
told which of the two happened: the trigger discards the outcome, and the
client hook layers a check-then-insert over it whose `SwipeResult` is
identical whether this call created the match or found it pre-existing. -/
theorem matchCreation_insert_if_absent_unreported :
    (∀ db c r now, matchFor db.matchRows c r = none →
      (matchUpsertIgnore db c r now).matchRows
        = db.matchRows ++ [⟨db.nextId, c, r, false, now⟩]) ∧
    (∀ db c r now m, matchFor db.matchRows c r = some m →
      matchUpsertIgnore db c r now = db) ∧
    (recordSwipe exDb1 noFaults 10 5 1 (some 11) Direction.like 7).result
      = (recordSwipe exDb2 noFaults 10 5 1 (some 11) Direction.like 7).result := by
  refine ⟨?_, ?_, by decide⟩
  · intro db c r now h
    unfold matchUpsertIgnore
    rw [h]
  · intro db c r now m h
    unfold matchUpsertIgnore
    rw [h]

/-- C1 witness: the two insert-if-absent behaviours at concrete stores. -/
theorem matchCreation_insert_if_absent_unreported_witness :
    (matchUpsertIgnore exDb1 1 5 7).matchRows
      = exDb1.matchRows ++ [⟨1, 1, 5, false, 7⟩] ∧
    matchUpsertIgnore exDb2 1 5 7 = exDb2 :=
  ⟨matchCreation_insert_if_absent_unreported.1 exDb1 1 5 7 (by decide),
   matchCreation_insert_if_absent_unreported.2.1 exDb2 1 5 7 ⟨2, 1, 5, false, 7⟩
     (by decide)⟩

/-- C2. At most one `MatchRecord` per `(group, item)`: `MatchesUnique` says
exactly that every key class has at most one row; every operation of the
system (hook swipes with any fault pattern, direct ledger writes, favorite
updates) preserves it over any sequence; and in the race scenario — both
actors of a fresh complete couple submit `like` for the same recipe in any
interleaving, with any number of resubmissions — exactly one match row for
that key exists at the end. -/
theorem match_uniqueness_invariant :
    (∀ ms, MatchesUnique ms ↔ ∀ c r, (matchesFor ms c r).length ≤ 1) ∧
    (∀ db l, MatchesUnique db.matchRows →
      MatchesUnique (applyOps db l).matchRows) ∧
    (∀ cid a b r n l, a ≠ b →
      l.any (fun p => p.1) = true → l.any (fun p => !p.1) = true →
      (matchesFor (applyOps (raceDb0 cid a b n)
        (raceOps cid a b r l)).matchRows cid r).length = 1) := by
  refine ⟨matchesUnique_iff_count, fun db l hu => matchesUnique_applyOps db l hu, ?_⟩
  intro cid a b r n l hab h1 h2
  have hrun := raceRun hab l (raceDb0 cid a b n) false false (raceInv_init cid a b r n)
  have hM := hrun.2.2.2.2
  rw [h1, h2] at hM
  simpa using hM

/-- C2 witness: a one-operation sequence preserving uniqueness, and the
two-submission race on a fresh couple ending with exactly one match. -/
theorem match_uniqueness_invariant_witness :
    MatchesUnique (applyOps exDb1
      [Op.swipeOp noFaults 10 5 1 true Direction.like 7]).matchRows ∧
    (matchesFor (applyOps (raceDb0 1 10 11 0)
      (raceOps 1 10 11 5 [(true, 3), (false, 4)])).matchRows 1 5).length = 1 :=
  ⟨match_uniqueness_invariant.2.1 exDb1 _ (by decide),
   match_uniqueness_invariant.2.2 1 10 11 5 0 [(true, 3), (false, 4)]
     (by decide) (by decide) (by decide)⟩

/-- C3. A match row exists only when both actors of a complete couple have a
recorded `like`: the invariant `coreInv` (authorized ledger rows, every match
justified by both likes) is preserved by every operation sequence; a dislike
submission never changes the `matches` table, whatever the history; and in
any state satisfying the invariant, if either slot of a complete couple has
no recorded `like` for an item then no match row for that `(group, item)`
exists. -/
theorem match_requires_both_likes :
    (∀ db l, coreInv db = true → coreInv (applyOps db l) = true) ∧
    (∀ db f u r c p now,
      (recordSwipe db f u r c p Direction.dislike now).db.matchRows
        = db.matchRows) ∧
    (∀ db cid r cpl u2, coreInv db = true →
      findCouple db.couples cid = some cpl → cpl.user2_id = some u2 →
      (hasLike db.swipes cpl.user1_id r cid = false
        ∨ hasLike db.swipes u2 r cid = false) →
      matchFor db.matchRows cid r = none) := by
  refine ⟨fun db l h => coreInv_applyOps db l h,
    fun db f u r c p now => recordSwipe_dislike_matchRows db f u r c p now, ?_⟩
  intro db cid r cpl u2 hinv hcpl hu2 hmiss
  rw [coreInv, Bool.and_eq_true] at hinv
  exact matchFor_none_of_missing_like hinv.2 hcpl hu2 hmiss

/-- C3 witness: the invariant carried across a dislike-then-like sequence,
and the no-premature-match consequence on a store where only one actor has
liked the recipe. -/
theorem match_requires_both_likes_witness :
    coreInv (applyOps exDb1 [Op.swipeOp noFaults 10 6 1 true Direction.dislike 8,
      Op.swipeOp noFaults 10 5 1 true Direction.like 9]) = true ∧
    matchFor exDb1.matchRows 1 5 = none :=
  ⟨match_requires_both_likes.1 exDb1 _ (by decide),
   match_requires_both_likes.2.2 exDb1 1 5 ⟨1, 10, some 11⟩ 11 (by decide)
     (by decide) (by decide) (Or.inl (by decide))⟩

/-- C4. The winning match-creation path dispatches no notification at all:
`recordSwipe` submits no envelope on any path or input, and in the concrete
completed-match scenario (`exDb4`: user 10 liked recipe 5 earlier, user 11
completes the match) the match row is created while the list of dispatched
envelopes is empty — `sendMatchNotification` exists but is never invoked by
the match-creation code. -/
theorem winning_path_dispatches_no_notification :
    (∀ db f u r c p d now, (recordSwipe db f u r c p d now).sent = []) ∧
    ((recordSwipe exDb4 noFaults 11 5 1 (some 10) Direction.like 7).result.isMatch
        = true ∧
      (recordSwipe exDb4 noFaults 11 5 1 (some 10) Direction.like 7).db.matchRows
        = [⟨2, 1, 5, false, 7⟩] ∧
      (recordSwipe exDb4 noFaults 11 5 1 (some 10) Direction.like 7).sent = []) :=
  ⟨fun db f u r c p d now => recordSwipe_sent_nil db f u r c p d now, by decide⟩

/-- C5. A second submission for an already-swiped `(actor, item, group)` tuple
is rejected by the ledger's unique constraint with the duplicate
(unique-violation) error: the store is unchanged, the ledger still holds
exactly the one original row for the tuple, the error is returned to the
caller, and no match attempt or other side effect happens. -/
theorem duplicate_swipe_rejected :
    ∀ db u r c p d t s0,
    swipeAllowed db.couples u c = true →
    keyedSwipes db.swipes u r c = [s0] →
    recordSwipe db noFaults u r c p d t
      = ⟨db, ⟨none, false, none, some StoreErr.uniqueViolation⟩, []⟩ ∧
    keyedSwipes (recordSwipe db noFaults u r c p d t).db.swipes u r c = [s0] := by
  intro db u r c p d t s0 hallow hk
  have hdup : hasSwipe db.swipes u r c = true := hasSwipe_of_keyed hk
  have heq := recordSwipe_dup (p := p) (d := d) (t := t) hallow hdup
  refine ⟨heq, ?_⟩
  rw [heq]
  exact hk

/-- C5 witness: user 11 resubmits the like already recorded in `exDb1`. -/
theorem duplicate_swipe_rejected_witness :
    recordSwipe exDb1 noFaults 11 5 1 (some 10) Direction.like 9
      = ⟨exDb1, ⟨none, false, none, some StoreErr.uniqueViolation⟩, []⟩ ∧
    keyedSwipes (recordSwipe exDb1 noFaults 11 5 1 (some 10)
      Direction.like 9).db.swipes 11 5 1 = [⟨0, 11, 5, 1, Direction.like⟩] :=
  duplicate_swipe_rejected exDb1 11 5 1 (some 10) Direction.like 9
    ⟨0, 11, 5, 1, Direction.like⟩ (by decide) (by decide)

/-- C6 (counterexample). The claim says a storage failure during the partner
lookup or the match insert is surfaced to the caller as a retryable fault.
It is absorbed instead: with the partner lookup faulted (second run: the
existing-match lookup and the match insert faulted), `recordSwipe` on
`exDb1` returns `error = none` and `isMatch = false` — indistinguishable
from an ordinary no-match success. -/
theorem match_step_failure_absorbed_counterexample :
    ((recordSwipe exDb1 ⟨false, true, false, false⟩ 10 5 1 (some 11)
        Direction.like 7).result.error = none ∧
      (recordSwipe exDb1 ⟨false, true, false, false⟩ 10 5 1 (some 11)
        Direction.like 7).result.isMatch = false) ∧
    ((recordSwipe exDb1 ⟨false, false, true, true⟩ 10 5 1 (some 11)
        Direction.like 7).result.error = none ∧
      (recordSwipe exDb1 ⟨false, false, true, true⟩ 10 5 1 (some 11)
        Direction.like 7).result.isMatch = false) := by
  decide

/-- C6 (amended). A storage failure during the partner lookup, or during the
match insert (reachable when the existing-match lookup also fails, since on
a lookup success the trigger-created row is found first), is logged and
absorbed: the call returns the recorded swipe with `isMatch = false` and
`error = none`, the same shape as a no-match success, distinguishing neither
already-matched nor datastore failure in the error field; the preference
event recorded in the first step is preserved in the ledger and returned. -/
theorem match_step_failure_absorbed :
    (∀ db u r c pid t, swipeAllowed db.couples u c = true →
      hasSwipe db.swipes u r c = false →
      (recordSwipe db ⟨false, true, false, false⟩ u r c (some pid)
          Direction.like t).result
        = ⟨some ⟨db.nextId, u, r, c, Direction.like⟩, false, none, none⟩ ∧
      (⟨db.nextId, u, r, c, Direction.like⟩ : SwipeRow)
        ∈ (recordSwipe db ⟨false, true, false, false⟩ u r c (some pid)
            Direction.like t).db.swipes) ∧
    (∀ db u r c pid t, swipeAllowed db.couples u c = true →
      hasSwipe db.swipes u r c = false →
      hasLike db.swipes pid r c = true →
      (recordSwipe db ⟨false, false, true, true⟩ u r c (some pid)
          Direction.like t).result
        = ⟨some ⟨db.nextId, u, r, c, Direction.like⟩, false, none, none⟩ ∧
      (⟨db.nextId, u, r, c, Direction.like⟩ : SwipeRow)
        ∈ (recordSwipe db ⟨false, false, true, true⟩ u r c (some pid)
            Direction.like t).db.swipes) := by
  constructor
  · intro db u r c pid t hallow hnew
    rw [recordSwipe_absorbs_partnerFault db u r c pid t hallow hnew]
    refine ⟨rfl, ?_⟩
    show (⟨db.nextId, u, r, c, Direction.like⟩ : SwipeRow)
      ∈ (checkForMatch (swipeAppend db ⟨db.nextId, u, r, c, Direction.like⟩)
        ⟨db.nextId, u, r, c, Direction.like⟩ t).swipes
    rw [checkForMatch_swipes]
    simp [swipeAppend]
  · intro db u r c pid t hallow hnew hpl
    rw [recordSwipe_absorbs_matchInsertFault db u r c pid t hallow hnew hpl]
    refine ⟨rfl, ?_⟩
    show (⟨db.nextId, u, r, c, Direction.like⟩ : SwipeRow)
      ∈ (checkForMatch (swipeAppend db ⟨db.nextId, u, r, c, Direction.like⟩)
        ⟨db.nextId, u, r, c, Direction.like⟩ t).swipes
    rw [checkForMatch_swipes]
    simp [swipeAppend]

/-- C6 witness: both fault sites exercised on `exDb1`. -/
theorem match_step_failure_absorbed_witness :
    (recordSwipe exDb1 ⟨false, true, false, false⟩ 10 5 1 (some 11)
        Direction.like 7).result
      = ⟨some ⟨1, 10, 5, 1, Direction.like⟩, false, none, none⟩ ∧
    (recordSwipe exDb1 ⟨false, false, true, true⟩ 10 5 1 (some 11)
        Direction.like 7).result
      = ⟨some ⟨1, 10, 5, 1, Direction.like⟩, false, none, none⟩ :=
  ⟨(match_step_failure_absorbed.1 exDb1 10 5 1 11 7 (by decide) (by decide)).1,
   (match_step_failure_absorbed.2 exDb1 10 5 1 11 7 (by decide) (by decide)
     (by decide)).1⟩

/-- C7. The notification dispatcher: with no registered delivery endpoint it
returns `false` with nothing submitted and no error (the function is total
and returns only a flag and the submitted envelopes — it writes no state);
with an endpoint it submits exactly one envelope to the gateway whatever the
gateway then does — success returns `true`, a gateway error payload or a
network failure returns `false` with still exactly the one submission and no
retry. -/
theorem sendMatchNotification_contract :
    ∀ profiles g uid name,
    (lookupPushToken profiles uid = none →
      sendMatchNotification profiles g uid name = (false, [])) ∧
    (∀ tok, lookupPushToken profiles uid = some tok →
      (sendMatchNotification profiles g uid name).2 = [mkMatchMessage tok name] ∧
      ((sendMatchNotification profiles g uid name).1 = true
        ↔ g = GatewayOutcome.ok)) := by
  intro profiles g uid name
  constructor
  · intro h
    unfold sendMatchNotification
    rw [h]
  · intro tok h
    unfold sendMatchNotification
    rw [h]
    cases g <;> simp

/-- C7 witness: a recipient without a token, and a gateway-error submission
that still carries exactly one envelope. -/
theorem sendMatchNotification_contract_witness :
    sendMatchNotification [⟨3, none⟩] GatewayOutcome.ok 3 "Pizza" = (false, []) ∧
    (sendMatchNotification [⟨3, some "tok"⟩] GatewayOutcome.respErrors 3
      "Pizza").2 = [mkMatchMessage "tok" "Pizza"] :=
  ⟨(sendMatchNotification_contract [⟨3, none⟩] GatewayOutcome.ok 3 "Pizza").1 rfl,
   ((sendMatchNotification_contract [⟨3, some "tok"⟩] GatewayOutcome.respErrors 3
     "Pizza").2 "tok" rfl).1⟩

/-- C8. Toggling a favorite from the fetched list mutates only the
`is_favorite` field of the rows with that id: the couples, swipes, id
counter are untouched; the match list keeps its length and its `id`,
`couple_id`, `recipe_id` and `matched_at` projections; every other match row
is preserved as-is; and no error is set. -/
theorem toggleFavorite_frame :
    ∀ db ms mid m, ms.find? (fun x => x.id == mid) = some m →
    (toggleFavorite db ms mid false).db.couples = db.couples ∧
    (toggleFavorite db ms mid false).db.swipes = db.swipes ∧
    (toggleFavorite db ms mid false).db.nextId = db.nextId ∧
    (toggleFavorite db ms mid false).db.matchRows.length = db.matchRows.length ∧
    (toggleFavorite db ms mid false).db.matchRows.map (fun x => x.id)
      = db.matchRows.map (fun x => x.id) ∧
    (toggleFavorite db ms mid false).db.matchRows.map (fun x => x.couple_id)
      = db.matchRows.map (fun x => x.couple_id) ∧
    (toggleFavorite db ms mid false).db.matchRows.map (fun x => x.recipe_id)
      = db.matchRows.map (fun x => x.recipe_id) ∧
    (toggleFavorite db ms mid false).db.matchRows.map (fun x => x.matched_at)
      = db.matchRows.map (fun x => x.matched_at) ∧
    (∀ x ∈ db.matchRows, x.id ≠ mid →
      x ∈ (toggleFavorite db ms mid false).db.matchRows) ∧
    (toggleFavorite db ms mid false).errSet = false := by
  intro db ms mid m h
  unfold toggleFavorite
  rw [h]
  refine ⟨rfl, rfl, rfl, by simp [dbSetFavorite], ?_, ?_, ?_, ?_, ?_, rfl⟩
  · exact setFav_map_proj _ _ _ _ (fun x => rfl)
  · exact setFav_map_proj _ _ _ _ (fun x => rfl)
  · exact setFav_map_proj _ _ _ _ (fun x => rfl)
  · exact setFav_map_proj _ _ _ _ (fun x => rfl)
  · intro x hx hne
    show x ∈ db.matchRows.map (fun y =>
      if y.id == mid then { y with is_favorite := !m.is_favorite } else y)
    rw [List.mem_map]
    refine ⟨x, hx, ?_⟩
    rw [if_neg (by simpa using hne)]

/-- C8 witness: toggling the one match of `exDb2` from its fetched list. -/
theorem toggleFavorite_frame_witness :
    (toggleFavorite exDb2 exDb2.matchRows 2 false).db.couples = exDb2.couples ∧
    (toggleFavorite exDb2 exDb2.matchRows 2 false).db.matchRows.map
      (fun x => x.recipe_id) = exDb2.matchRows.map (fun x => x.recipe_id) :=
  ⟨(toggleFavorite_frame exDb2 exDb2.matchRows 2 ⟨2, 1, 5, false, 7⟩ (by decide)).1,
   (toggleFavorite_frame exDb2 exDb2.matchRows 2 ⟨2, 1, 5, false, 7⟩
     (by decide)).2.2.2.2.2.2.1⟩

/-- C9 (counterexample). The claim says a subscription instance that reached
Errored never returns to a connected state. The hook's status callback keeps
no such terminality: after `CHANNEL_ERROR` followed by a later `SUBSCRIBED`
from the same underlying channel (no fresh `subscribe` call — the channel
instance is unchanged), the connection state is connected again. -/
theorem realtime_error_not_terminal :
    (runStatuses (subscribeCall ⟨⟨false, none⟩, none, 0⟩ (some 1) true)
      [ChannelStatus.CHANNEL_ERROR, ChannelStatus.SUBSCRIBED]).connState
      = ⟨true, none⟩ ∧
    (runStatuses (subscribeCall ⟨⟨false, none⟩, none, 0⟩ (some 1) true)
      [ChannelStatus.CHANNEL_ERROR, ChannelStatus.SUBSCRIBED]).channel
      = (subscribeCall ⟨⟨false, none⟩, none, 0⟩ (some 1) true).channel := by
  constructor
  · rfl
  · rfl

/-- C9 (amended). The hook maps `SUBSCRIBED` to connected and
`CLOSED`/`CHANNEL_ERROR` to disconnected with a stored error, and performs
no automatic retry of its own: processing any status stream never creates or
replaces the channel instance; a fresh `subscribe` call (with a couple id,
enabled) is what installs a new channel instance, and `unsubscribe` drops it
and resets the state. Errored/Closed are however not terminal for the
instance's connection state (see the counterexample). -/
theorem realtime_no_auto_retry :
    (∀ h l, (runStatuses h l).channel = h.channel
      ∧ (runStatuses h l).nextChannel = h.nextChannel) ∧
    (∀ h, onStatus h ChannelStatus.SUBSCRIBED
      = { h with connState := ⟨true, none⟩ }) ∧
    (∀ h, onStatus h ChannelStatus.CLOSED
      = { h with connState := ⟨false, some "Connection CLOSED"⟩ }) ∧
    (∀ h, onStatus h ChannelStatus.CHANNEL_ERROR
      = { h with connState := ⟨false, some "Connection CHANNEL_ERROR"⟩ }) ∧
    (∀ h c, subscribeCall h (some c) true
      = { h with channel := some h.nextChannel, nextChannel := h.nextChannel + 1 }) ∧
    (∀ h ch, h.channel = some ch →
      unsubscribeCall h = ⟨⟨false, none⟩, none, h.nextChannel⟩) := by
  refine ⟨runStatuses_frame, fun h => rfl, fun h => rfl, fun h => rfl,
    fun h c => by simp [subscribeCall], ?_⟩
  intro h ch hch
  unfold unsubscribeCall
  rw [hch]

/-- C9 witness: the no-auto-retry frame and the unsubscribe reset at a
concrete hook state. -/
theorem realtime_no_auto_retry_witness :
    (runStatuses ⟨⟨true, none⟩, some 0, 1⟩ [ChannelStatus.CLOSED]).channel
      = some 0 ∧
    unsubscribeCall ⟨⟨true, none⟩, some 0, 1⟩ = ⟨⟨false, none⟩, none, 1⟩ :=
  ⟨(realtime_no_auto_retry.1 ⟨⟨true, none⟩, some 0, 1⟩ [ChannelStatus.CLOSED]).1,
   realtime_no_auto_retry.2.2.2.2.2 ⟨⟨true, none⟩, some 0, 1⟩ 0 rfl⟩

/-- C10. A `toggleFavorite` call whose id is not in the fetched match list is
a complete no-op: no update is issued to the store, the store and the local
list are unchanged, and no error is reported. -/
theorem toggleFavorite_unknown_id_noop :
    ∀ db ms mid fault, ms.find? (fun x => x.id == mid) = none →
    toggleFavorite db ms mid fault = ⟨db, ms, false, false⟩ := by
  intro db ms mid fault h
  unfold toggleFavorite
  rw [h]

/-- C10 witness: an id absent from the fetched list. -/
theorem toggleFavorite_unknown_id_noop_witness :
    toggleFavorite exDb2 exDb2.matchRows 99 false
      = ⟨exDb2, exDb2.matchRows, false, false⟩ :=
  toggleFavorite_unknown_id_noop exDb2 exDb2.matchRows 99 false (by decide)

end MealMatch
